import Mathlib

/-!
Verification of the parking-data core (geo primitives, deduplication engine,
discovery state machine, ingestion orchestrator, availability aggregator).

Shallow embedding conventions:
* JavaScript numbers are modelled as real numbers (`ℝ`); integer-valued
  counters as `ℤ`/`ℕ`.
* A TypeScript field that can be `undefined` at runtime is modelled as an
  `Option`; JavaScript truthiness fallbacks (`x || d`) are modelled exactly,
  including the fact that `0 || d = d` and the empty string is falsy.
* Fallible code returns `Option`.
* `Map` iteration order is insertion order; it is modelled with lists.
-/

/-- Piecewise definition of `Math.atan2` (the C/JS convention):
`atan2 y x` is the angle of the point `(x, y)`, with `atan2 0 0 = 0`. -/
noncomputable def atan2 (y x : ℝ) : ℝ :=
  if 0 < x then Real.arctan (y / x)
  else if x < 0 ∧ 0 ≤ y then Real.arctan (y / x) + Real.pi
  else if x < 0 ∧ y < 0 then Real.arctan (y / x) - Real.pi
  else if x = 0 ∧ 0 < y then Real.pi / 2
  else if x = 0 ∧ y < 0 then -(Real.pi / 2)
  else 0

/-- Haversine distance in meters, from `calculateDistance` in
`server/geo-utils` (and the identical private copies in
`DeduplicationService.calculateDistance` and
`ParkingAggregatorService.calculateDistance`; all three use the Earth radius
6371000 m = 6371e3). -/
noncomputable def calculateDistance (lat1 lon1 lat2 lon2 : ℝ) : ℝ :=
  let R : ℝ := 6371000
  let phi1 := lat1 * Real.pi / 180
  let phi2 := lat2 * Real.pi / 180
  let dphi := (lat2 - lat1) * Real.pi / 180
  let dlam := (lon2 - lon1) * Real.pi / 180
  let a := Real.sin (dphi / 2) * Real.sin (dphi / 2) +
    Real.cos phi1 * Real.cos phi2 * (Real.sin (dlam / 2) * Real.sin (dlam / 2))
  let c := 2 * atan2 (Real.sqrt a) (Real.sqrt (1 - a))
  R * c

lemma arctan_nonneg_of_nonneg {z : ℝ} (h : 0 ≤ z) : 0 ≤ Real.arctan z := by
  have h2 := Real.arctan_strictMono.monotone h
  rwa [Real.arctan_zero] at h2

lemma atan2_nonneg {y x : ℝ} (hy : 0 ≤ y) (hx : 0 ≤ x) : 0 ≤ atan2 y x := by
  unfold atan2
  split_ifs with h1 h2 h3 h4 h5
  · exact arctan_nonneg_of_nonneg (div_nonneg hy (le_of_lt h1))
  · linarith [h2.1]
  · linarith [h3.1]
  · positivity
  · linarith [h5.2]
  · exact le_refl 0

lemma atan2_zero_one : atan2 0 1 = 0 := by
  unfold atan2
  rw [if_pos one_pos]
  simp [Real.arctan_zero]

lemma calculateDistance_self (lat lon : ℝ) : calculateDistance lat lon lat lon = 0 := by
  unfold calculateDistance
  simp only [sub_self, zero_mul, zero_div, Real.sin_zero, mul_zero, zero_add,
    add_zero, Real.sqrt_zero, sub_zero, Real.sqrt_one]
  rw [atan2_zero_one]
  ring

lemma calculateDistance_symm (lat1 lon1 lat2 lon2 : ℝ) :
    calculateDistance lat1 lon1 lat2 lon2 = calculateDistance lat2 lon2 lat1 lon1 := by
  unfold calculateDistance
  dsimp only
  have h1 : (lat1 - lat2) * Real.pi / 180 / 2 = -((lat2 - lat1) * Real.pi / 180 / 2) := by ring
  have h2 : (lon1 - lon2) * Real.pi / 180 / 2 = -((lon2 - lon1) * Real.pi / 180 / 2) := by ring
  rw [h1, h2]
  simp only [Real.sin_neg]
  ring_nf

lemma calculateDistance_nonneg (lat1 lon1 lat2 lon2 : ℝ) :
    0 ≤ calculateDistance lat1 lon1 lat2 lon2 := by
  unfold calculateDistance
  dsimp only
  have h := atan2_nonneg (Real.sqrt_nonneg (Real.sin ((lat2 - lat1) * Real.pi / 180 / 2) *
      Real.sin ((lat2 - lat1) * Real.pi / 180 / 2) +
      Real.cos (lat1 * Real.pi / 180) * Real.cos (lat2 * Real.pi / 180) *
      (Real.sin ((lon2 - lon1) * Real.pi / 180 / 2) *
        Real.sin ((lon2 - lon1) * Real.pi / 180 / 2))))
    (Real.sqrt_nonneg (1 - (Real.sin ((lat2 - lat1) * Real.pi / 180 / 2) *
      Real.sin ((lat2 - lat1) * Real.pi / 180 / 2) +
      Real.cos (lat1 * Real.pi / 180) * Real.cos (lat2 * Real.pi / 180) *
      (Real.sin ((lon2 - lon1) * Real.pi / 180 / 2) *
        Real.sin ((lon2 - lon1) * Real.pi / 180 / 2)))))
  positivity

/-- On the equator (both latitudes 0) the Haversine formula reduces to arc
length: distance = R * (pi/180) * (longitude difference in degrees), for
differences of at most one degree.  This is the workhorse for evaluating
`calculateDistance` at concrete inputs. -/
lemma calculateDistance_equator (a b : ℝ) (h : |b - a| ≤ 1) :
    calculateDistance 0 a 0 b = 6371000 * (Real.pi / 180) * |b - a| := by
  unfold calculateDistance
  dsimp only
  have h0 : ((0 : ℝ) - 0) * Real.pi / 180 / 2 = 0 := by ring
  have hc : (0 : ℝ) * Real.pi / 180 = 0 := by ring
  rw [h0, hc, Real.sin_zero, Real.cos_zero]
  set u := (b - a) * Real.pi / 180 / 2 with hu
  have hue : u = (b - a) * (Real.pi / 360) := by rw [hu]; ring
  have hu_abs : |u| = |b - a| * (Real.pi / 360) := by
    rw [hue, abs_mul, abs_of_pos (by positivity : (0 : ℝ) < Real.pi / 360)]
  have hpi := Real.pi_pos
  have hlt : |u| < Real.pi / 2 := by
    rw [hu_abs]
    nlinarith [abs_nonneg (b - a)]
  have hbounds := abs_lt.mp hlt
  have hcos : 0 < Real.cos u := Real.cos_pos_of_mem_Ioo ⟨hbounds.1, hbounds.2⟩
  have ha : (0 : ℝ) * 0 + 1 * 1 * (Real.sin u * Real.sin u) = Real.sin u ^ 2 := by ring
  rw [ha]
  have hsq : Real.sqrt (Real.sin u ^ 2) = |Real.sin u| := Real.sqrt_sq_eq_abs _
  have hsq2 : Real.sqrt (1 - Real.sin u ^ 2) = Real.cos u := by
    rw [← Real.cos_sq' u, Real.sqrt_sq_eq_abs, abs_of_pos hcos]
  rw [hsq, hsq2]
  have hsin_abs : |Real.sin u| = Real.sin |u| := by
    rcases le_or_lt 0 u with hu0 | hu0
    · rw [abs_of_nonneg hu0,
        abs_of_nonneg (Real.sin_nonneg_of_nonneg_of_le_pi hu0 (by linarith))]
    · have hn : 0 ≤ Real.sin (-u) :=
        Real.sin_nonneg_of_nonneg_of_le_pi (by linarith) (by linarith)
      rw [abs_of_neg hu0]
      calc |Real.sin u| = |Real.sin (-u)| := by rw [Real.sin_neg, abs_neg]
        _ = Real.sin (-u) := abs_of_nonneg hn
  have hat : atan2 |Real.sin u| (Real.cos u) = |u| := by
    unfold atan2
    rw [if_pos hcos, hsin_abs, ← Real.cos_abs u, ← Real.tan_eq_sin_div_cos,
      Real.arctan_tan (by linarith [abs_nonneg u]) hlt]
  rw [hat, hu_abs]
  ring

/-- Longitude differences of at most 4.49e-5 degrees on the equator are
within the 5 m dedup threshold. -/
lemma equator_le_five (a b : ℝ) (h : |b - a| ≤ 0.0000449) :
    calculateDistance 0 a 0 b ≤ 5 := by
  rw [calculateDistance_equator a b (le_trans h (by norm_num))]
  have hpi := Real.pi_lt_d6
  have hpi0 := Real.pi_pos
  nlinarith [abs_nonneg (b - a)]

/-- Longitude differences of at least 4.6e-5 degrees on the equator exceed
the 5 m dedup threshold. -/
lemma equator_gt_five (a b : ℝ) (h1 : |b - a| ≤ 1) (h2 : 0.000046 ≤ |b - a|) :
    5 < calculateDistance 0 a 0 b := by
  rw [calculateDistance_equator a b h1]
  have hpi := Real.pi_gt_d6
  nlinarith

/-- A JSON value, as far as the merge step needs one: opaque scalar values
plus the `merged_from` array of (primarySource, sourceId, confidence)
records that `mergeSpots` writes into the merged metadata. -/
inductive JVal where
  | str : String → JVal
  | num : ℝ → JVal
  | boolean : Bool → JVal
  | mergedFrom : List (String × Option String × Option ℝ) → JVal

/-- A JSON object (`regulations`, `attributes`, `metadata` blobs). -/
abbrev JObj := List (String × JVal)

/-- JavaScript object spread: in an object literal with the entries of
`base` spread first and those of `extra` spread second, the keys of `extra`
override equal keys of `base`. -/
def jspread (base extra : JObj) : JObj :=
  base.filter (fun p => !(extra.any (fun q => q.1 == p.1))) ++ extra

/-- `InsertParkingSpot` from `shared/schema-v2` (the candidate-spot shape
produced by the source adapters and consumed by the deduplication engine).
Fields that TypeScript marks optional, or that runtime objects may simply
lack, are `Option`s. -/
structure CandidateSpot where
  latitude : ℝ
  longitude : ℝ
  address : Option String
  spotType : String
  capacity : Option ℤ
  availableSpaces : Option ℤ
  primarySource : String
  sourceId : Option String
  confidence : Option ℝ
  verifiedSources : Option (List String)
  regulations : Option JObj
  attributes : Option JObj
  metadata : Option JObj
  isActive : Option Bool
  needsVerification : Option Bool

/-- JavaScript truthiness fallback for the sort comparator key
`spot.confidence || 0` (note that both `undefined` and `0` give `0`). -/
noncomputable def sortKey (s : CandidateSpot) : ℝ := s.confidence.getD 0

/-- JavaScript truthiness fallback `spot.confidence || 0.5` used as the
centroid weight and in the merged-confidence max (`0` is falsy, so a zero
confidence also falls back to 0.5). -/
noncomputable def weightOr (s : CandidateSpot) : ℝ :=
  match s.confidence with
  | some c => if c = 0 then 0.5 else c
  | none => 0.5

/-- JavaScript truthiness fallback `s.capacity || 1`. -/
def capOr1 (s : CandidateSpot) : ℤ :=
  match s.capacity with
  | some c => if c = 0 then 1 else c
  | none => 1

/-- One step of a stable descending insertion sort on the comparator key:
the behaviour of the (stable) JavaScript
`spots.sort((a, b) => (b.confidence || 0) - (a.confidence || 0))`. -/
noncomputable def insertByConf (x : CandidateSpot) : List CandidateSpot → List CandidateSpot
  | [] => [x]
  | y :: ys => if sortKey y < sortKey x then x :: y :: ys else y :: insertByConf x ys

/-- Stable sort of a cluster by descending `confidence || 0`. -/
noncomputable def sortByConfDesc : List CandidateSpot → List CandidateSpot
  | [] => []
  | x :: xs => insertByConf x (sortByConfDesc xs)

/-- Append an element if it is not already present: one `Set.add` /
first-occurrence `Map` key insertion, preserving JS insertion order. -/
def addUnique {α : Type} [DecidableEq α] (l : List α) (x : α) : List α :=
  if x ∈ l then l else l ++ [x]

/-- One iteration of the `verifiedSources` loop in `mergeSpots`: add the
spot's `primarySource`, then every entry of its own `verifiedSources`
(`if (spot.verifiedSources)` skips a missing array), without duplicates. -/
def collectStep (acc : List String) (s : CandidateSpot) : List String :=
  (s.verifiedSources.getD []).foldl addUnique (addUnique acc s.primarySource)

/-- The `verifiedSources` set built by `mergeSpots`, in JS `Set` insertion
order over the sorted cluster. -/
def collectSources (spots : List CandidateSpot) : List String :=
  spots.foldl collectStep []

/-- `Math.max(...l)` for a nonempty list (the default is never used by the
code paths modelled here; JavaScript would give `-Infinity` for an empty
spread). -/
def listMax {α : Type} [LinearOrder α] (dflt : α) : List α → α
  | [] => dflt
  | x :: xs => xs.foldl max x

/-- `DeduplicationService.mergeSpots`.  The in-place `sort` happens first,
so every later loop runs over the sorted array.  An empty cluster would
make the JS code dereference `undefined`; it is modelled as `none` (and
never occurs: `deduplicate`/`deduplicateFast` always pass nonempty
clusters). -/
noncomputable def mergeSpots (cluster : List CandidateSpot) : Option CandidateSpot :=
  match cluster with
  | [] => none
  | [s] => some s
  | x :: y :: tl =>
    match sortByConfDesc (x :: y :: tl) with
    | [] => none
    | primarySpot :: sortedRest =>
      let spots := primarySpot :: sortedRest
      let verifiedSources := collectSources spots
      let totalWeight := (spots.map weightOr).sum
      let weightedLat := (spots.map (fun s => s.latitude * weightOr s)).sum
      let weightedLon := (spots.map (fun s => s.longitude * weightOr s)).sum
      let latitude := weightedLat / totalWeight
      let longitude := weightedLon / totalWeight
      let capacity := listMax 1 (spots.map capOr1)
      let meterSpot := spots.find? (fun s => s.primarySource == "sf_meters")
      let censusSpot := spots.find? (fun s => s.primarySource == "sf_parking_census")
      let regulations :=
        jspread (jspread (primarySpot.regulations.getD [])
            ((meterSpot.bind CandidateSpot.regulations).getD []))
          ((censusSpot.bind CandidateSpot.regulations).getD [])
      let metadata :=
        jspread
          [("merged_from",
            JVal.mergedFrom (spots.map (fun s => (s.primarySource, s.sourceId, s.confidence))))]
          (primarySpot.metadata.getD [])
      let confidence := listMax 0.5 (spots.map weightOr)
      some { primarySpot with
        latitude := latitude
        longitude := longitude
        capacity := some capacity
        confidence := some confidence
        verifiedSources := some verifiedSources
        regulations := some regulations
        metadata := some metadata
        needsVerification := some (spots.any (fun s => s.needsVerification.getD false)) }

/-- The spots of `rest` within the 5 m `DUPLICATE_THRESHOLD_METERS` of
`seed` (the inner `j` loop of `deduplicate` collecting `duplicates`). -/
noncomputable def nearSeed (seed : CandidateSpot) : List CandidateSpot → List CandidateSpot
  | [] => []
  | t :: ts =>
    if calculateDistance seed.latitude seed.longitude t.latitude t.longitude ≤ 5 then
      t :: nearSeed seed ts
    else nearSeed seed ts

/-- The spots of `rest` beyond the 5 m threshold of `seed` (the spots the
inner loop leaves unprocessed for later seeds). -/
noncomputable def farSeed (seed : CandidateSpot) : List CandidateSpot → List CandidateSpot
  | [] => []
  | t :: ts =>
    if calculateDistance seed.latitude seed.longitude t.latitude t.longitude ≤ 5 then
      farSeed seed ts
    else t :: farSeed seed ts

lemma farSeed_length_le (seed : CandidateSpot) :
    ∀ l : List CandidateSpot, (farSeed seed l).length ≤ l.length := by
  intro l
  induction l with
  | nil => simp [farSeed]
  | cons t ts ih =>
    unfold farSeed
    split
    · exact Nat.le_succ_of_le ih
    · simpa using Nat.succ_le_succ ih

/-- `DeduplicationService.deduplicate` (exact pairwise strategy).  The
index/`processed`-set loop of the source is equivalent to this recursion on
the list of still-unprocessed spots in their original order: the first
unprocessed spot is the next seed `spots[i]`; the inner `j` loop gathers
every later unprocessed spot within 5 m of that seed into its cluster and
marks it processed, which is exactly the `nearSeed`/`farSeed` split. -/
noncomputable def deduplicate : List CandidateSpot → List CandidateSpot
  | [] => []
  | s :: rest =>
    (mergeSpots (s :: nearSeed s rest)).toList ++ deduplicate (farSeed s rest)
termination_by l => l.length
decreasing_by
  simp only [List.length_cons, Nat.lt_succ_iff]
  exact farSeed_length_le _ _

/-- The grid cell of a spot in `deduplicateFast`: coordinates divided by the
grid size 0.00005 and rounded (`Math.round x = ⌊x + 1/2⌋`, which `round`
matches).  The source then multiplies back by the grid size and formats with
`toFixed(6)` to build the string key; on the coordinate magnitudes in play
that string determines, and is determined by, this pair of integers. -/
noncomputable def gridKey (s : CandidateSpot) : ℤ × ℤ :=
  (round (s.latitude / 0.00005), round (s.longitude / 0.00005))

/-- The keys of a JS `Map` in insertion order: first occurrence of each key. -/
def keysInOrder {α : Type} [DecidableEq α] (ks : List α) : List α :=
  ks.foldl addUnique []

/-- `DeduplicationService.deduplicateFast` (grid strategy): bucket the spots
by grid cell (buckets iterate in first-occurrence key order, each bucket
keeping insertion order), pass singleton buckets through unchanged and merge
larger buckets. -/
noncomputable def deduplicateFast (spots : List CandidateSpot) : List CandidateSpot :=
  (keysInOrder (spots.map gridKey)).flatMap (fun k =>
    let cellSpots := spots.filter (fun s => decide (gridKey s = k))
    if cellSpots.length = 1 then cellSpots else (mergeSpots cellSpots).toList)

/-- Two spots farther apart than the 5 m dedup threshold. -/
noncomputable def farApart (a b : CandidateSpot) : Prop :=
  5 < calculateDistance a.latitude a.longitude b.latitude b.longitude

lemma nearSeed_eq_nil (seed : CandidateSpot) (l : List CandidateSpot)
    (h : ∀ t ∈ l, farApart seed t) : nearSeed seed l = [] := by
  induction l with
  | nil => rfl
  | cons t ts ih =>
    simp only [nearSeed]
    rw [if_neg (not_le.2 (h t (by simp)))]
    exact ih (fun t' ht' => h t' (by simp [ht']))

lemma farSeed_eq_self (seed : CandidateSpot) (l : List CandidateSpot)
    (h : ∀ t ∈ l, farApart seed t) : farSeed seed l = l := by
  induction l with
  | nil => rfl
  | cons t ts ih =>
    simp only [farSeed]
    rw [if_neg (not_le.2 (h t (by simp)))]
    rw [ih (fun t' ht' => h t' (by simp [ht']))]

/-- A list whose spots are pairwise farther apart than the threshold is a
fixed point of the exact dedup strategy. -/
lemma deduplicate_fixed (Y : List CandidateSpot) (h : Y.Pairwise farApart) :
    deduplicate Y = Y := by
  induction Y with
  | nil => rw [deduplicate]
  | cons s rest ih =>
    rw [List.pairwise_cons] at h
    rw [deduplicate, nearSeed_eq_nil s rest h.1, farSeed_eq_self s rest h.1, ih h.2]
    rfl

lemma abs_sub_of_le {a b : ℝ} (h : a ≤ b) : |b - a| = b - a :=
  abs_of_nonneg (sub_nonneg.2 h)

/-- An equatorial candidate spot at a given longitude with a given
confidence; all other fields are fixed plausible values. -/
noncomputable def mkTestSpot (lon conf : ℝ) : CandidateSpot :=
  { latitude := 0
    longitude := lon
    address := none
    spotType := "street"
    capacity := some 1
    availableSpaces := some 0
    primarySource := "osm"
    sourceId := none
    confidence := some conf
    verifiedSources := none
    regulations := none
    attributes := none
    metadata := none
    isActive := some true
    needsVerification := some false }

/-- C1 (amended). Deduplication is idempotent on every candidate list whose
first dedup pass yields spots that are pairwise farther apart than the 5 m
threshold: `deduplicate (deduplicate X) = deduplicate X` for every such `X`
(each spot then forms a singleton cluster, which `mergeSpots` returns
unchanged).  Without that separation condition idempotence can fail, because
merging relocates a cluster to its confidence-weighted centroid (see the
counterexample). -/
theorem deduplicate_idempotent_of_separated (X : List CandidateSpot)
    (h : (deduplicate X).Pairwise farApart) :
    deduplicate (deduplicate X) = deduplicate X :=
  deduplicate_fixed (deduplicate X) h

/-- Witness for C1 (amended): two equatorial spots 50 m apart. -/
theorem deduplicate_idempotent_of_separated_witness :
    (deduplicate [mkTestSpot 0 0.5, mkTestSpot 0.00045 0.5]).Pairwise farApart ∧
      deduplicate (deduplicate [mkTestSpot 0 0.5, mkTestSpot 0.00045 0.5]) =
        deduplicate [mkTestSpot 0 0.5, mkTestSpot 0.00045 0.5] := by
  have hd : farApart (mkTestSpot 0 0.5) (mkTestSpot 0.00045 0.5) := by
    show 5 < calculateDistance _ _ _ _
    simp only [mkTestSpot]
    exact equator_gt_five 0 0.00045
      (by rw [abs_sub_of_le (by norm_num)]; norm_num)
      (by rw [abs_sub_of_le (by norm_num)]; norm_num)
  have hX : ([mkTestSpot 0 0.5, mkTestSpot 0.00045 0.5]).Pairwise farApart := by
    simp [List.pairwise_cons, hd]
  have hfix := deduplicate_fixed _ hX
  constructor
  · rw [hfix]; exact hX
  · exact deduplicate_idempotent_of_separated _ (by rw [hfix]; exact hX)

lemma insertByConf_ne_nil (x : CandidateSpot) (l : List CandidateSpot) :
    insertByConf x l ≠ [] := by
  cases l with
  | nil => simp [insertByConf]
  | cons y ys =>
    simp only [insertByConf]
    split <;> simp

lemma sort_cons_ne_nil (x : CandidateSpot) (l : List CandidateSpot) :
    sortByConfDesc (x :: l) ≠ [] := by
  simp only [sortByConfDesc]
  exact insertByConf_ne_nil _ _

lemma mergeSpots_cons_cons (x y : CandidateSpot) (tl : List CandidateSpot) :
    ∃ m, mergeSpots (x :: y :: tl) = some m := by
  simp only [mergeSpots]
  rcases hs : sortByConfDesc (x :: y :: tl) with _ | ⟨p, rest⟩
  · exact absurd hs (sort_cons_ne_nil _ _)
  · exact ⟨_, rfl⟩

/-- The merged spot of a cluster of two or more sits at the
confidence-weighted centroid of the sorted cluster. -/
lemma mergeSpots_latlon (x y : CandidateSpot) (tl : List CandidateSpot) (m : CandidateSpot)
    (h : mergeSpots (x :: y :: tl) = some m) :
    m.latitude = ((sortByConfDesc (x :: y :: tl)).map (fun s => s.latitude * weightOr s)).sum /
        ((sortByConfDesc (x :: y :: tl)).map weightOr).sum ∧
      m.longitude = ((sortByConfDesc (x :: y :: tl)).map (fun s => s.longitude * weightOr s)).sum /
        ((sortByConfDesc (x :: y :: tl)).map weightOr).sum := by
  simp only [mergeSpots] at h
  revert h
  rcases hs : sortByConfDesc (x :: y :: tl) with _ | ⟨p, rest⟩
  · exact fun h => absurd hs (sort_cons_ne_nil _ _)
  · intro h
    have h2 := Option.some.inj h
    rw [← h2]
    constructor <;> rfl

/-- Counterexample for C1.  Four equatorial spots (longitudes 0, 4.4e-5,
4.6e-5, 8.8e-5 degrees; confidences 0.2, 0.8, 0.8, 0.2).  The first pass
forms the clusters {1st, 2nd} and {3rd, 4th} (4.6e-5 deg is about 5.11 m,
above the threshold, so the 3rd spot does not join the first cluster), and
the confidence-weighted centroids land about 2.1 m apart, so a second pass
merges them: `deduplicate` shrinks the list again and is not idempotent. -/
theorem deduplicate_not_idempotent :
    deduplicate (deduplicate
        [mkTestSpot 0 0.2, mkTestSpot 0.000044 0.8, mkTestSpot 0.000046 0.8,
          mkTestSpot 0.000088 0.2]) ≠
      deduplicate
        [mkTestSpot 0 0.2, mkTestSpot 0.000044 0.8, mkTestSpot 0.000046 0.8,
          mkTestSpot 0.000088 0.2] := by
  have dAB : calculateDistance 0 0 0 0.000044 ≤ 5 :=
    equator_le_five _ _ (by rw [abs_sub_of_le (by norm_num)]; norm_num)
  have dAC : ¬ calculateDistance 0 0 0 0.000046 ≤ 5 :=
    not_le.2 (equator_gt_five _ _ (by rw [abs_sub_of_le (by norm_num)]; norm_num)
      (by rw [abs_sub_of_le (by norm_num)]; norm_num))
  have dAD : ¬ calculateDistance 0 0 0 0.000088 ≤ 5 :=
    not_le.2 (equator_gt_five _ _ (by rw [abs_sub_of_le (by norm_num)]; norm_num)
      (by rw [abs_sub_of_le (by norm_num)]; norm_num))
  have dCD : calculateDistance 0 0.000046 0 0.000088 ≤ 5 :=
    equator_le_five _ _ (by rw [abs_sub_of_le (by norm_num)]; norm_num)
  have hnear1 : nearSeed (mkTestSpot 0 0.2)
      [mkTestSpot 0.000044 0.8, mkTestSpot 0.000046 0.8, mkTestSpot 0.000088 0.2] =
      [mkTestSpot 0.000044 0.8] := by
    simp [nearSeed, mkTestSpot, dAB, dAC, dAD]
  have hfar1 : farSeed (mkTestSpot 0 0.2)
      [mkTestSpot 0.000044 0.8, mkTestSpot 0.000046 0.8, mkTestSpot 0.000088 0.2] =
      [mkTestSpot 0.000046 0.8, mkTestSpot 0.000088 0.2] := by
    simp [farSeed, mkTestSpot, dAB, dAC, dAD]
  have hnear2 : nearSeed (mkTestSpot 0.000046 0.8) [mkTestSpot 0.000088 0.2] =
      [mkTestSpot 0.000088 0.2] := by
    simp [nearSeed, mkTestSpot, dCD]
  have hfar2 : farSeed (mkTestSpot 0.000046 0.8) [mkTestSpot 0.000088 0.2] = [] := by
    simp [farSeed, mkTestSpot, dCD]
  obtain ⟨m1, hm1⟩ := mergeSpots_cons_cons (mkTestSpot 0 0.2) (mkTestSpot 0.000044 0.8) []
  obtain ⟨m2, hm2⟩ := mergeSpots_cons_cons (mkTestSpot 0.000046 0.8) (mkTestSpot 0.000088 0.2) []
  have hpass1 : deduplicate
      [mkTestSpot 0 0.2, mkTestSpot 0.000044 0.8, mkTestSpot 0.000046 0.8,
        mkTestSpot 0.000088 0.2] = [m1, m2] := by
    rw [deduplicate, hnear1, hfar1, deduplicate, hnear2, hfar2, deduplicate, hm1, hm2]
    rfl
  have hs1 : sortByConfDesc [mkTestSpot 0 0.2, mkTestSpot 0.000044 0.8] =
      [mkTestSpot 0.000044 0.8, mkTestSpot 0 0.2] := by
    norm_num [sortByConfDesc, insertByConf, sortKey, mkTestSpot]
  have hs2 : sortByConfDesc [mkTestSpot 0.000046 0.8, mkTestSpot 0.000088 0.2] =
      [mkTestSpot 0.000046 0.8, mkTestSpot 0.000088 0.2] := by
    norm_num [sortByConfDesc, insertByConf, sortKey, mkTestSpot]
  obtain ⟨hm1lat, hm1lon⟩ := mergeSpots_latlon _ _ _ _ hm1
  obtain ⟨hm2lat, hm2lon⟩ := mergeSpots_latlon _ _ _ _ hm2
  rw [hs1] at hm1lat hm1lon
  rw [hs2] at hm2lat hm2lon
  have hm1lat' : m1.latitude = 0 := by
    rw [hm1lat]; norm_num [weightOr, mkTestSpot]
  have hm1lon' : m1.longitude = 0.0000352 := by
    rw [hm1lon]; norm_num [weightOr, mkTestSpot]
  have hm2lat' : m2.latitude = 0 := by
    rw [hm2lat]; norm_num [weightOr, mkTestSpot]
  have hm2lon' : m2.longitude = 0.0000544 := by
    rw [hm2lon]; norm_num [weightOr, mkTestSpot]
  have dM : calculateDistance m1.latitude m1.longitude m2.latitude m2.longitude ≤ 5 := by
    rw [hm1lat', hm1lon', hm2lat', hm2lon']
    exact equator_le_five _ _ (by rw [abs_sub_of_le (by norm_num)]; norm_num)
  obtain ⟨m12, hm12⟩ := mergeSpots_cons_cons m1 m2 []
  have hpass2 : deduplicate [m1, m2] = [m12] := by
    rw [deduplicate]
    have hn : nearSeed m1 [m2] = [m2] := by simp [nearSeed, dM]
    have hf : farSeed m1 [m2] = [] := by simp [farSeed, dM]
    rw [hn, hf, deduplicate, hm12]
    rfl
  intro heq
  rw [hpass1, hpass2] at heq
  exact absurd (congrArg List.length heq) (by simp)

/-- C8. The grid strategy is not equivalent to the exact pairwise strategy:
two equatorial spots at longitudes 1.2e-4 and 1.3e-4 degrees are about 1.1 m
apart (within the 5 m threshold), but they fall in different 0.00005-degree
grid cells (`round 2.4 = 2` vs `round 2.6 = 3`), so `deduplicateFast`
returns both spots unmerged while `deduplicate` merges them into one. -/
theorem deduplicateFast_not_equivalent_to_deduplicate :
    calculateDistance 0 0.00012 0 0.00013 ≤ 5 ∧
      gridKey (mkTestSpot 0.00012 0.5) ≠ gridKey (mkTestSpot 0.00013 0.5) ∧
      deduplicateFast [mkTestSpot 0.00012 0.5, mkTestSpot 0.00013 0.5] =
        [mkTestSpot 0.00012 0.5, mkTestSpot 0.00013 0.5] ∧
      (deduplicate [mkTestSpot 0.00012 0.5, mkTestSpot 0.00013 0.5]).length = 1 := by
  have dPQ : calculateDistance 0 0.00012 0 0.00013 ≤ 5 :=
    equator_le_five _ _ (by rw [abs_sub_of_le (by norm_num)]; norm_num)
  have hround2 : round ((0.00012 : ℝ) / 0.00005) = 2 := by
    rw [round_eq]
    norm_num
  have hround3 : round ((0.00013 : ℝ) / 0.00005) = 3 := by
    rw [round_eq]
    norm_num
  have hroundLat : round ((0 : ℝ) / 0.00005) = 0 := by norm_num
  have hkP : gridKey (mkTestSpot 0.00012 0.5) = (0, 2) := by
    simp only [gridKey, mkTestSpot]
    rw [hroundLat, hround2]
  have hkQ : gridKey (mkTestSpot 0.00013 0.5) = (0, 3) := by
    simp only [gridKey, mkTestSpot]
    rw [hroundLat, hround3]
  refine ⟨dPQ, ?_, ?_, ?_⟩
  · rw [hkP, hkQ]
    decide
  · simp [deduplicateFast, keysInOrder, addUnique, hkP, hkQ]
  · have hnear : nearSeed (mkTestSpot 0.00012 0.5) [mkTestSpot 0.00013 0.5] =
        [mkTestSpot 0.00013 0.5] := by
      simp [nearSeed, mkTestSpot, dPQ]
    have hfar : farSeed (mkTestSpot 0.00012 0.5) [mkTestSpot 0.00013 0.5] = [] := by
      simp [farSeed, mkTestSpot, dPQ]
    obtain ⟨m, hm⟩ := mergeSpots_cons_cons (mkTestSpot 0.00012 0.5) (mkTestSpot 0.00013 0.5) []
    rw [deduplicate, hnear, hfar, deduplicate, hm]
    rfl

lemma insertByConf_perm (x : CandidateSpot) (l : List CandidateSpot) :
    (insertByConf x l).Perm (x :: l) := by
  induction l with
  | nil => exact List.Perm.refl _
  | cons y ys ih =>
    simp only [insertByConf]
    split
    · exact List.Perm.refl _
    · exact (List.Perm.cons y ih).trans (List.Perm.swap x y ys)

lemma sortByConfDesc_perm (l : List CandidateSpot) : (sortByConfDesc l).Perm l := by
  induction l with
  | nil => exact List.Perm.refl _
  | cons x xs ih =>
    simp only [sortByConfDesc]
    exact (insertByConf_perm x (sortByConfDesc xs)).trans (List.Perm.cons x ih)

lemma le_foldl_max {α : Type} [LinearOrder α] (l : List α) : ∀ a : α, a ≤ l.foldl max a := by
  induction l with
  | nil => intro a; exact le_refl a
  | cons x xs ih => intro a; exact le_trans (le_max_left a x) (ih (max a x))

lemma mem_le_foldl_max {α : Type} [LinearOrder α] (l : List α) :
    ∀ a b : α, b ∈ l → b ≤ l.foldl max a := by
  induction l with
  | nil => intro a b h; simp at h
  | cons x xs ih =>
    intro a b h
    rcases List.mem_cons.mp h with h | h
    · subst h
      exact le_trans (le_max_right a b) (le_foldl_max xs (max a b))
    · exact ih (max a x) b h

lemma foldl_max_mem {α : Type} [LinearOrder α] (l : List α) :
    ∀ a : α, l.foldl max a = a ∨ l.foldl max a ∈ l := by
  induction l with
  | nil => intro a; exact Or.inl rfl
  | cons x xs ih =>
    intro a
    rcases ih (max a x) with h | h
    · rcases max_choice a x with hm | hm
      · exact Or.inl (by rw [List.foldl_cons, h, hm])
      · refine Or.inr ?_
        rw [List.foldl_cons, h, hm]
        exact List.mem_cons_self x xs
    · exact Or.inr (List.mem_cons_of_mem x h)

lemma listMax_mem {α : Type} [LinearOrder α] (d x : α) (xs : List α) :
    listMax d (x :: xs) ∈ x :: xs := by
  simp only [listMax]
  rcases foldl_max_mem xs x with h | h
  · rw [h]; exact List.mem_cons_self _ _
  · exact List.mem_cons_of_mem _ h

lemma le_listMax {α : Type} [LinearOrder α] (d x : α) (xs : List α) :
    ∀ b ∈ x :: xs, b ≤ listMax d (x :: xs) := by
  intro b hb
  simp only [listMax]
  rcases List.mem_cons.mp hb with h | h
  · subst h; exact le_foldl_max xs b
  · exact mem_le_foldl_max xs x b h

lemma mem_addUnique_of_mem {α : Type} [DecidableEq α] {l : List α} {a : α} (x : α)
    (h : a ∈ l) : a ∈ addUnique l x := by
  unfold addUnique
  split
  · exact h
  · exact List.mem_append_left _ h

lemma mem_addUnique_self {α : Type} [DecidableEq α] (l : List α) (x : α) :
    x ∈ addUnique l x := by
  unfold addUnique
  split_ifs with h
  · exact h
  · exact List.mem_append_right _ (List.mem_singleton_self x)

lemma mem_foldl_addUnique_of_mem {α : Type} [DecidableEq α] (vs : List α) :
    ∀ (acc : List α) (a : α), a ∈ acc → a ∈ vs.foldl addUnique acc := by
  induction vs with
  | nil => intro acc a h; exact h
  | cons v vs ih =>
    intro acc a h
    exact ih (addUnique acc v) a (mem_addUnique_of_mem v h)

lemma mem_foldl_addUnique_of_mem_list {α : Type} [DecidableEq α] (vs : List α) :
    ∀ (acc : List α) (a : α), a ∈ vs → a ∈ vs.foldl addUnique acc := by
  induction vs with
  | nil => intro acc a h; simp at h
  | cons v vs ih =>
    intro acc a h
    rcases List.mem_cons.mp h with h | h
    · subst h
      exact mem_foldl_addUnique_of_mem vs (addUnique acc a) a (mem_addUnique_self acc a)
    · exact ih (addUnique acc v) a h

lemma mem_foldl_collectStep_of_mem (l : List CandidateSpot) :
    ∀ (acc : List String) (a : String), a ∈ acc → a ∈ l.foldl collectStep acc := by
  induction l with
  | nil => intro acc a h; exact h
  | cons t ts ih =>
    intro acc a h
    refine ih (collectStep acc t) a ?_
    unfold collectStep
    exact mem_foldl_addUnique_of_mem _ _ _ (mem_addUnique_of_mem _ h)

lemma collect_contains (l : List CandidateSpot) :
    ∀ (acc : List String) (s : CandidateSpot), s ∈ l →
      s.primarySource ∈ l.foldl collectStep acc ∧
        ∀ v ∈ s.verifiedSources.getD [], v ∈ l.foldl collectStep acc := by
  induction l with
  | nil => intro acc s h; simp at h
  | cons t ts ih =>
    intro acc s hs
    rcases List.mem_cons.mp hs with h | h
    · subst h
      constructor
      · refine mem_foldl_collectStep_of_mem ts (collectStep acc s) _ ?_
        unfold collectStep
        exact mem_foldl_addUnique_of_mem _ _ _ (mem_addUnique_self _ _)
      · intro v hv
        refine mem_foldl_collectStep_of_mem ts (collectStep acc s) _ ?_
        unfold collectStep
        exact mem_foldl_addUnique_of_mem_list _ _ _ hv
    · exact ih (collectStep acc t) s h

/-- The merged fields of a cluster of two or more. -/
lemma mergeSpots_fields (x y : CandidateSpot) (tl : List CandidateSpot) (m : CandidateSpot)
    (h : mergeSpots (x :: y :: tl) = some m) :
    m.capacity = some (listMax 1 ((sortByConfDesc (x :: y :: tl)).map capOr1)) ∧
      m.confidence = some (listMax 0.5 ((sortByConfDesc (x :: y :: tl)).map weightOr)) ∧
      m.verifiedSources = some (collectSources (sortByConfDesc (x :: y :: tl))) := by
  simp only [mergeSpots] at h
  revert h
  rcases hs : sortByConfDesc (x :: y :: tl) with _ | ⟨p, rest⟩
  · exact fun h => absurd hs (sort_cons_ne_nil _ _)
  · intro h
    have h2 := Option.some.inj h
    rw [← h2]
    refine ⟨rfl, rfl, rfl⟩

/-- C2. For every cluster of two or more candidates (each with a present
capacity of at least 1 and a present positive confidence, so that the
JavaScript `|| 1` / `|| 0.5` fallbacks are inert), the merged spot's
`capacity` equals the maximum capacity over the cluster (it is some
member's capacity and dominates every member's), its `confidence` equals
the maximum confidence over the cluster, and its `verifiedSources`
contains every member's `primarySource` and every entry of every member's
`verifiedSources` (a superset of their union). -/
theorem mergeSpots_merge_policy (x y : CandidateSpot) (tl : List CandidateSpot)
    (hcap : ∀ s ∈ x :: y :: tl, ∃ k : ℤ, s.capacity = some k ∧ 1 ≤ k)
    (hconf : ∀ s ∈ x :: y :: tl, ∃ c : ℝ, s.confidence = some c ∧ 0 < c) :
    ∃ m, mergeSpots (x :: y :: tl) = some m ∧
      (∃ s ∈ x :: y :: tl, m.capacity = s.capacity) ∧
      (∀ s ∈ x :: y :: tl, s.capacity.getD 1 ≤ m.capacity.getD 1) ∧
      (∃ s ∈ x :: y :: tl, m.confidence = s.confidence) ∧
      (∀ s ∈ x :: y :: tl, s.confidence.getD 0.5 ≤ m.confidence.getD 0.5) ∧
      (∀ s ∈ x :: y :: tl, s.primarySource ∈ m.verifiedSources.getD [] ∧
        ∀ v ∈ s.verifiedSources.getD [], v ∈ m.verifiedSources.getD []) := by
  obtain ⟨m, hm⟩ := mergeSpots_cons_cons x y tl
  obtain ⟨hmc, hmf, hmv⟩ := mergeSpots_fields x y tl m hm
  have hperm := sortByConfDesc_perm (x :: y :: tl)
  have hcap' : ∀ s ∈ sortByConfDesc (x :: y :: tl), capOr1 s = s.capacity.getD 1 ∧
      s.capacity = some (capOr1 s) := by
    intro s hs
    obtain ⟨k, hk, hk1⟩ := hcap s (hperm.mem_iff.mp hs)
    have hkne : k ≠ 0 := by omega
    rw [hk]
    unfold capOr1
    rw [hk]
    simp [hkne]
  have hconf' : ∀ s ∈ sortByConfDesc (x :: y :: tl), weightOr s = s.confidence.getD 0.5 ∧
      s.confidence = some (weightOr s) := by
    intro s hs
    obtain ⟨c, hc, hc1⟩ := hconf s (hperm.mem_iff.mp hs)
    have hcne : c ≠ 0 := ne_of_gt hc1
    rw [hc]
    unfold weightOr
    rw [hc]
    simp [hcne]
  rcases hsort : sortByConfDesc (x :: y :: tl) with _ | ⟨p, rest⟩
  · exact absurd hsort (sort_cons_ne_nil _ _)
  · rw [hsort] at hmc hmf hmv hperm hcap' hconf'
    refine ⟨m, hm, ?_, ?_, ?_, ?_, ?_⟩
    · -- capacity is attained
      have hmem := listMax_mem 1 (capOr1 p) (rest.map capOr1)
      rw [← List.map_cons] at hmem
      obtain ⟨s, hsmem, hseq⟩ := List.mem_map.mp hmem
      refine ⟨s, hperm.mem_iff.mp hsmem, ?_⟩
      rw [hmc, (hcap' s hsmem).2, hseq]
    · -- capacity dominates
      intro s hs
      have hsmem := hperm.mem_iff.mpr hs
      have hle := le_listMax 1 (capOr1 p) (rest.map capOr1) (capOr1 s)
        (by rw [← List.map_cons]; exact List.mem_map_of_mem capOr1 hsmem)
      rw [hmc, List.map_cons]
      rw [← (hcap' s hsmem).1]
      simpa using hle
    · -- confidence is attained
      have hmem := listMax_mem 0.5 (weightOr p) (rest.map weightOr)
      rw [← List.map_cons] at hmem
      obtain ⟨s, hsmem, hseq⟩ := List.mem_map.mp hmem
      refine ⟨s, hperm.mem_iff.mp hsmem, ?_⟩
      rw [hmf, (hconf' s hsmem).2, hseq]
    · -- confidence dominates
      intro s hs
      have hsmem := hperm.mem_iff.mpr hs
      have hle := le_listMax 0.5 (weightOr p) (rest.map weightOr) (weightOr s)
        (by rw [← List.map_cons]; exact List.mem_map_of_mem weightOr hsmem)
      rw [hmf, List.map_cons]
      rw [← (hconf' s hsmem).1]
      simpa using hle
    · -- verified sources
      intro s hs
      have hsmem := hperm.mem_iff.mpr hs
      have hcol := collect_contains (p :: rest) [] s hsmem
      rw [hmv]
      exact hcol

/-- Witness for C2: a concrete cluster of two spots with confidences 0.2
and 0.8 and capacities 1. -/
theorem mergeSpots_merge_policy_witness :
    ∃ m, mergeSpots [mkTestSpot 0 0.2, mkTestSpot 0.000044 0.8] = some m ∧
      (∃ s ∈ [mkTestSpot 0 0.2, mkTestSpot 0.000044 0.8], m.capacity = s.capacity) ∧
      (∀ s ∈ [mkTestSpot 0 0.2, mkTestSpot 0.000044 0.8],
        s.capacity.getD 1 ≤ m.capacity.getD 1) ∧
      (∃ s ∈ [mkTestSpot 0 0.2, mkTestSpot 0.000044 0.8], m.confidence = s.confidence) ∧
      (∀ s ∈ [mkTestSpot 0 0.2, mkTestSpot 0.000044 0.8],
        s.confidence.getD 0.5 ≤ m.confidence.getD 0.5) ∧
      (∀ s ∈ [mkTestSpot 0 0.2, mkTestSpot 0.000044 0.8],
        s.primarySource ∈ m.verifiedSources.getD [] ∧
          ∀ v ∈ s.verifiedSources.getD [], v ∈ m.verifiedSources.getD []) := by
  refine mergeSpots_merge_policy (mkTestSpot 0 0.2) (mkTestSpot 0.000044 0.8) [] ?_ ?_
  · intro s hs
    rcases List.mem_cons.mp hs with h | h
    · subst h; exact ⟨1, by simp [mkTestSpot], le_refl 1⟩
    · rcases List.mem_cons.mp h with h | h
      · subst h; exact ⟨1, by simp [mkTestSpot], le_refl 1⟩
      · simp at h
  · intro s hs
    rcases List.mem_cons.mp hs with h | h
    · subst h; exact ⟨0.2, by simp [mkTestSpot], by norm_num⟩
    · rcases List.mem_cons.mp h with h | h
      · subst h; exact ⟨0.8, by simp [mkTestSpot], by norm_num⟩
      · simp at h

/-- C9. The distance primitive is symmetric, returns exactly 0 (in the real
model, hence within any floating-point tolerance) for identical points, and
is always non-negative. -/
theorem calculateDistance_props :
    (∀ lat1 lon1 lat2 lon2 : ℝ,
        calculateDistance lat1 lon1 lat2 lon2 = calculateDistance lat2 lon2 lat1 lon1) ∧
      (∀ lat lon : ℝ, calculateDistance lat lon lat lon = 0) ∧
      (∀ lat1 lon1 lat2 lon2 : ℝ, 0 ≤ calculateDistance lat1 lon1 lat2 lon2) :=
  ⟨calculateDistance_symm, calculateDistance_self, calculateDistance_nonneg⟩

/-- The structural constraint `T extends { latitude: number; longitude:
number }` of the generic `findClosestSpot`. -/
class HasCoords (α : Type) where
  latitude : α → ℝ
  longitude : α → ℝ

/-- The distance computed for one candidate inside `findClosestSpot`'s
loop. -/
noncomputable def spotDistance {T : Type} [HasCoords T] (latitude longitude : ℝ) (spot : T) : ℝ :=
  calculateDistance latitude longitude (HasCoords.latitude spot) (HasCoords.longitude spot)

/-- One iteration of `findClosestSpot`'s loop.  The accumulator is `none`
while `closestSpot` is still `null` and `minDistance` is `Infinity` (every
real distance satisfies `distance < Infinity`, so only the
`distance <= maxDistanceMeters` conjunct matters there). -/
noncomputable def closestStep {T : Type} [HasCoords T]
    (latitude longitude maxDistanceMeters : ℝ) (acc : Option (T × ℝ)) (spot : T) :
    Option (T × ℝ) :=
  match acc with
  | none =>
    if spotDistance latitude longitude spot ≤ maxDistanceMeters then
      some (spot, spotDistance latitude longitude spot)
    else none
  | some (c, m) =>
    if spotDistance latitude longitude spot < m ∧
        spotDistance latitude longitude spot ≤ maxDistanceMeters then
      some (spot, spotDistance latitude longitude spot)
    else some (c, m)

/-- `findClosestSpot` from `server/geo-utils`: linear scan keeping the
closest spot seen so far, provided it is within `maxDistanceMeters`;
returns `null` (here `none`) when no spot qualifies. -/
noncomputable def findClosestSpot {T : Type} [HasCoords T] (latitude longitude : ℝ)
    (spots : List T) (maxDistanceMeters : ℝ) : Option (T × ℝ) :=
  spots.foldl (closestStep latitude longitude maxDistanceMeters) none

lemma closestStep_go_some {T : Type} [HasCoords T] (lat lon maxd : ℝ) (l : List T) :
    ∀ (c : T) (m : ℝ), m ≤ maxd →
      (l.foldl (closestStep lat lon maxd) (some (c, m)) = some (c, m) ∧
        ∀ s ∈ l, m ≤ spotDistance lat lon s) ∨
      (∃ c' m' pre post, l.foldl (closestStep lat lon maxd) (some (c, m)) = some (c', m') ∧
        l = pre ++ c' :: post ∧ spotDistance lat lon c' = m' ∧ m' < m ∧ m' ≤ maxd ∧
        (∀ s ∈ pre, m' < spotDistance lat lon s) ∧
        (∀ s ∈ post, m' ≤ spotDistance lat lon s)) := by
  induction l with
  | nil =>
    intro c m hm
    left
    exact ⟨rfl, by simp⟩
  | cons t ts ih =>
    intro c m hm
    by_cases hd : spotDistance lat lon t < m
    · have hdm : spotDistance lat lon t ≤ maxd := le_of_lt (lt_of_lt_of_le hd hm)
      have hstep : closestStep lat lon maxd (some (c, m)) t =
          some (t, spotDistance lat lon t) := by
        simp only [closestStep]
        rw [if_pos ⟨hd, hdm⟩]
      rw [List.foldl_cons, hstep]
      rcases ih t (spotDistance lat lon t) hdm with ⟨heq, hall⟩ |
        ⟨c', m', pre, post, heq, hsplit, hdist, hlt, hle, hpre, hpost⟩
      · right
        exact ⟨t, _, [], ts, heq, rfl, rfl, hd, hdm, by simp, hall⟩
      · right
        refine ⟨c', m', t :: pre, post, heq, by rw [hsplit]; rfl, hdist,
          lt_trans hlt hd, hle, ?_, hpost⟩
        intro s hs
        rcases List.mem_cons.mp hs with h | h
        · subst h; exact hlt
        · exact hpre s h
    · have hstep : closestStep lat lon maxd (some (c, m)) t = some (c, m) := by
        simp only [closestStep]
        rw [if_neg (fun hcon => hd hcon.1)]
      rw [List.foldl_cons, hstep]
      rcases ih c m hm with ⟨heq, hall⟩ |
        ⟨c', m', pre, post, heq, hsplit, hdist, hlt, hle, hpre, hpost⟩
      · left
        refine ⟨heq, ?_⟩
        intro s hs
        rcases List.mem_cons.mp hs with h | h
        · subst h; exact not_lt.mp hd
        · exact hall s h
      · right
        refine ⟨c', m', t :: pre, post, heq, by rw [hsplit]; rfl, hdist, hlt, hle, ?_, hpost⟩
        intro s hs
        rcases List.mem_cons.mp hs with h | h
        · subst h; exact lt_of_lt_of_le hlt (not_lt.mp hd)
        · exact hpre s h

lemma closestStep_go_none {T : Type} [HasCoords T] (lat lon maxd : ℝ) (l : List T) :
    (l.foldl (closestStep lat lon maxd) none = none ∧
      ∀ s ∈ l, maxd < spotDistance lat lon s) ∨
    (∃ c' m' pre post, l.foldl (closestStep lat lon maxd) none = some (c', m') ∧
      l = pre ++ c' :: post ∧ spotDistance lat lon c' = m' ∧ m' ≤ maxd ∧
      (∀ s ∈ pre, m' < spotDistance lat lon s) ∧
      (∀ s ∈ post, m' ≤ spotDistance lat lon s)) := by
  induction l with
  | nil =>
    left
    exact ⟨rfl, by simp⟩
  | cons t ts ih =>
    by_cases hd : spotDistance lat lon t ≤ maxd
    · have hstep : closestStep lat lon maxd none t = some (t, spotDistance lat lon t) := by
        simp only [closestStep]
        rw [if_pos hd]
      rw [List.foldl_cons, hstep]
      rcases closestStep_go_some lat lon maxd ts t (spotDistance lat lon t) hd with
        ⟨heq, hall⟩ | ⟨c', m', pre, post, heq, hsplit, hdist, hlt, hle, hpre, hpost⟩
      · right
        exact ⟨t, _, [], ts, heq, rfl, rfl, hd, by simp, hall⟩
      · right
        refine ⟨c', m', t :: pre, post, heq, by rw [hsplit]; rfl, hdist, hle, ?_, hpost⟩
        intro s hs
        rcases List.mem_cons.mp hs with h | h
        · subst h; exact hlt
        · exact hpre s h
    · have hstep : closestStep lat lon maxd none t = none := by
        simp only [closestStep]
        rw [if_neg hd]
      rw [List.foldl_cons, hstep]
      rcases ih with ⟨heq, hall⟩ |
        ⟨c', m', pre, post, heq, hsplit, hdist, hle, hpre, hpost⟩
      · left
        refine ⟨heq, ?_⟩
        intro s hs
        rcases List.mem_cons.mp hs with h | h
        · subst h; exact not_le.mp hd
        · exact hall s h
      · right
        refine ⟨c', m', t :: pre, post, heq, by rw [hsplit]; rfl, hdist, hle, ?_, hpost⟩
        intro s hs
        rcases List.mem_cons.mp hs with h | h
        · subst h; exact lt_of_le_of_lt hle (not_le.mp hd)
        · exact hpre s h

/-- C5. `findClosestSpot` either returns no match, in which case every
candidate is farther than `maxDistanceMeters`, or returns a candidate `s`
at distance `d` such that `d` is within the limit, `d` is minimal over the
whole candidate list, and every candidate strictly earlier in input order
is strictly farther (so ties at the minimum go to the first candidate
encountered). -/
theorem findClosestSpot_spec {T : Type} [HasCoords T] (latitude longitude : ℝ)
    (spots : List T) (maxDistanceMeters : ℝ) :
    (findClosestSpot latitude longitude spots maxDistanceMeters = none ∧
      ∀ s ∈ spots, maxDistanceMeters < spotDistance latitude longitude s) ∨
    (∃ s d pre post,
      findClosestSpot latitude longitude spots maxDistanceMeters = some (s, d) ∧
      spots = pre ++ s :: post ∧ spotDistance latitude longitude s = d ∧
      d ≤ maxDistanceMeters ∧
      (∀ t ∈ pre, d < spotDistance latitude longitude t) ∧
      (∀ t ∈ spots, d ≤ spotDistance latitude longitude t)) := by
  rcases closestStep_go_none latitude longitude maxDistanceMeters spots with
    ⟨heq, hall⟩ | ⟨c', m', pre, post, heq, hsplit, hdist, hle, hpre, hpost⟩
  · exact Or.inl ⟨heq, hall⟩
  · right
    refine ⟨c', m', pre, post, heq, hsplit, hdist, hle, hpre, ?_⟩
    intro t ht
    rw [hsplit] at ht
    rcases List.mem_append.mp ht with h | h
    · exact le_of_lt (hpre t h)
    · rcases List.mem_cons.mp h with h | h
      · subst h
        exact le_of_eq hdist.symm
      · exact hpost t h

/-- The legacy `status` enum of a parking slot. -/
inductive SpotStatus where
  | available : SpotStatus
  | taken : SpotStatus
deriving DecidableEq

/-- `ParkingSlot` runtime objects held by `MemoryStorage`.  The database
schema declares the two-tier fields (`spotType`, `dataSource`, `verified`,
`confidenceScore`, `userConfirmations`, `currentlyAvailable`) non-nullable,
but `MemoryStorage.createParkingSlot` builds its object literal without
them, so at runtime they can be `undefined`: they are `Option`s here.
`id` models the UUID key, `postedAt` the timestamp.  (The remaining schema
columns — restrictions, spotCount, safety and demand fields — are never
touched by the modelled operations and would ride along unchanged through
the same object spreads.) -/
structure ParkingSlot where
  id : Nat
  latitude : ℝ
  longitude : ℝ
  address : String
  notes : Option String
  status : SpotStatus
  spotType : Option String
  dataSource : Option String
  verified : Option Bool
  confidenceScore : Option ℤ
  userConfirmations : Option ℤ
  firstReportedBy : Option String
  currentlyAvailable : Option Bool
  postedAt : Nat

instance : HasCoords ParkingSlot :=
  ⟨ParkingSlot.latitude, ParkingSlot.longitude⟩

/-- `InsertParkingSlot` as passed to `createParkingSlot` (fields with
schema defaults may be absent). -/
structure InsertParkingSlot where
  latitude : ℝ
  longitude : ℝ
  address : String
  notes : Option String
  status : Option SpotStatus
  spotType : Option String
  dataSource : Option String
  verified : Option Bool
  confidenceScore : Option ℤ
  userConfirmations : Option ℤ
  firstReportedBy : Option String
  currentlyAvailable : Option Bool

/-- `Partial<InsertParkingSlot>` as spread by `updateParkingSlot`.  The
outer `Option` is presence of the property in the updates object; for
fields whose stored value can itself be `undefined`, the inner value is an
`Option` again (a present-but-undefined property overrides on spread).
`id` and `postedAt` cannot appear in the TypeScript type, but a raw caller
could still attach them; they are included to state that the code ignores
them. -/
structure SlotUpdates where
  id : Option Nat
  latitude : Option ℝ
  longitude : Option ℝ
  address : Option String
  notes : Option (Option String)
  status : Option SpotStatus
  spotType : Option (Option String)
  dataSource : Option (Option String)
  verified : Option (Option Bool)
  confidenceScore : Option (Option ℤ)
  userConfirmations : Option (Option ℤ)
  firstReportedBy : Option (Option String)
  currentlyAvailable : Option (Option Bool)
  postedAt : Option Nat

/-- The updates object with no properties. -/
def emptyUpdates : SlotUpdates :=
  ⟨none, none, none, none, none, none, none, none, none, none, none, none, none, none⟩

/-- The in-memory store: the slots `Map` in insertion order plus a fresh-id
counter modelling `randomUUID`. -/
structure MemState where
  slots : List ParkingSlot
  nextId : Nat

/-- `this.slots.get(id)`. -/
def getSlot (st : MemState) (id : Nat) : Option ParkingSlot :=
  st.slots.find? (fun s => s.id == id)

/-- `this.slots.set(id, u)`: replace the entry with that key, or append a
new entry (JS `Map` keeps insertion order). -/
def mapSetSlot : List ParkingSlot → Nat → ParkingSlot → List ParkingSlot
  | [], _, u => [u]
  | s :: ss, id, u => if s.id = id then u :: ss else s :: mapSetSlot ss id u

/-- The object literal `{ ...existing, ...updates, id: existing.id,
postedAt: existing.postedAt }` of `MemoryStorage.updateParkingSlot`
(storage.ts lines 55-60): present update properties override, and the
trailing explicit `id`/`postedAt` always restore the original values. -/
def applyUpdates (existing : ParkingSlot) (u : SlotUpdates) : ParkingSlot :=
  { id := existing.id
    latitude := u.latitude.getD existing.latitude
    longitude := u.longitude.getD existing.longitude
    address := u.address.getD existing.address
    notes := u.notes.getD existing.notes
    status := u.status.getD existing.status
    spotType := u.spotType.getD existing.spotType
    dataSource := u.dataSource.getD existing.dataSource
    verified := u.verified.getD existing.verified
    confidenceScore := u.confidenceScore.getD existing.confidenceScore
    userConfirmations := u.userConfirmations.getD existing.userConfirmations
    firstReportedBy := u.firstReportedBy.getD existing.firstReportedBy
    currentlyAvailable := u.currentlyAvailable.getD existing.currentlyAvailable
    postedAt := existing.postedAt }

/-- `MemoryStorage.updateParkingSlot` (storage.ts lines 51-63). -/
def updateParkingSlot (st : MemState) (id : Nat) (updates : SlotUpdates) :
    Option ParkingSlot × MemState :=
  match getSlot st id with
  | none => (none, st)
  | some existing =>
    let updated := applyUpdates existing updates
    (some updated, { st with slots := mapSetSlot st.slots id updated })

/-- `MemoryStorage.createParkingSlot` (storage.ts lines 37-49).  The object
literal sets only `id`, `latitude`, `longitude`, `address`, `notes`,
`status` and `postedAt`; every other field of the insert payload
(`spotType`, `dataSource`, `verified`, `confidenceScore`,
`userConfirmations`, `firstReportedBy`, `currentlyAvailable`) is dropped,
although the declared `ParkingSlot` type requires most of them.
`insertSlot.notes || null` makes the empty string `null`;
`insertSlot.status || "available"` defaults a missing status. -/
def createParkingSlot (st : MemState) (now : Nat) (insertSlot : InsertParkingSlot) :
    ParkingSlot × MemState :=
  let slot : ParkingSlot :=
    { id := st.nextId
      latitude := insertSlot.latitude
      longitude := insertSlot.longitude
      address := insertSlot.address
      notes := match insertSlot.notes with
        | some s => if s = "" then none else some s
        | none => none
      status := insertSlot.status.getD SpotStatus.available
      spotType := none
      dataSource := none
      verified := none
      confidenceScore := none
      userConfirmations := none
      firstReportedBy := none
      currentlyAvailable := none
      postedAt := now }
  (slot, { slots := mapSetSlot st.slots slot.id slot, nextId := st.nextId + 1 })

/-- `SpotReportResult`.  `spot` is an `Option` only because the source
applies a non-null assertion (`updated!`) whose `none` case is
unreachable. -/
structure SpotReportResult where
  spot : Option ParkingSlot
  isNewDiscovery : Bool
  distance : Option ℝ
  message : String
  pointsEarned : Option ℤ

/-- `MemoryStorage.reportParkingSpot` (storage.ts lines 69-115): find the
nearest existing slot within 20 m; update it if found, otherwise create a
new user-discovered slot and award 20 points. -/
noncomputable def reportParkingSpot (st : MemState) (now : Nat) (latitude longitude : ℝ)
    (status : SpotStatus) (userId : Option String) : SpotReportResult × MemState :=
  match findClosestSpot latitude longitude st.slots 20 with
  | some nb =>
    let r := updateParkingSlot st nb.1.id
      { emptyUpdates with
        status := some status
        currentlyAvailable := some (some (decide (status = SpotStatus.available)))
        confidenceScore := some (some 95) }
    ({ spot := r.1
       isNewDiscovery := false
       distance := some nb.2
       message := "Spot status updated"
       pointsEarned := none }, r.2)
  | none =>
    let r := createParkingSlot st now
      { latitude := latitude
        longitude := longitude
        address := "User-discovered location"
        notes := none
        status := some status
        spotType := some "user_discovered"
        dataSource := some "user_report"
        verified := some false
        confidenceScore := some 70
        userConfirmations := some 1
        firstReportedBy := userId
        currentlyAvailable := some (decide (status = SpotStatus.available)) }
    ({ spot := some r.1
       isNewDiscovery := true
       distance := none
       message := "New parking spot discovered!"
       pointsEarned := some 20 }, r.2)

/-- The updates object built by `confirmParkingSpot`: the new confirmation
count (`(existing.userConfirmations || 0) + 1`; a stored 0 and a missing
value both fall back to 0), and, when the new count reaches 3,
`verified: true` with `confidenceScore: 95`, otherwise the existing values
(note all three properties are present on the updates object). -/
def confirmUpdates (existing : ParkingSlot) : SlotUpdates :=
  { emptyUpdates with
    userConfirmations := some (some (existing.userConfirmations.getD 0 + 1))
    verified := some (if 3 ≤ existing.userConfirmations.getD 0 + 1 then some true
      else existing.verified)
    confidenceScore := some (if 3 ≤ existing.userConfirmations.getD 0 + 1 then some 95
      else existing.confidenceScore) }

/-- `MemoryStorage.confirmParkingSpot` (storage.ts lines 117-129). -/
def confirmParkingSpot (st : MemState) (id : Nat) : Option ParkingSlot × MemState :=
  match getSlot st id with
  | none => (none, st)
  | some existing => updateParkingSlot st id (confirmUpdates existing)

/-- The empty development store. -/
def emptyMemState : MemState := { slots := [], nextId := 0 }

lemma getSlot_id {st : MemState} {id : Nat} {s : ParkingSlot} (h : getSlot st id = some s) :
    s.id = id := by
  unfold getSlot at h
  have h2 := List.find?_some h
  simpa using h2

lemma find?_mapSetSlot (u : ParkingSlot) (id : Nat) (hu : u.id = id) :
    ∀ l : List ParkingSlot, (∃ s, l.find? (fun t => t.id == id) = some s) →
      (mapSetSlot l id u).find? (fun t => t.id == id) = some u := by
  intro l
  induction l with
  | nil =>
    rintro ⟨s, hs⟩
    simp at hs
  | cons t ts ih =>
    rintro ⟨s, hs⟩
    by_cases ht : t.id = id
    · simp only [mapSetSlot]
      rw [if_pos ht]
      exact List.find?_cons_of_pos _ (by simpa using hu)
    · simp only [mapSetSlot]
      rw [if_neg ht]
      rw [List.find?_cons_of_neg _ (by simpa using ht)]
      refine ih ⟨s, ?_⟩
      rw [List.find?_cons_of_neg _ (by simpa using ht)] at hs
      exact hs

lemma updateParkingSlot_found {st : MemState} {id : Nat} {s : ParkingSlot}
    (updates : SlotUpdates) (h : getSlot st id = some s) :
    updateParkingSlot st id updates =
      (some (applyUpdates s updates),
        { st with slots := mapSetSlot st.slots id (applyUpdates s updates) }) := by
  unfold updateParkingSlot
  rw [h]

lemma getSlot_after_set {st : MemState} {id : Nat} {s : ParkingSlot} (u : ParkingSlot)
    (hu : u.id = id) (h : getSlot st id = some s) :
    getSlot { st with slots := mapSetSlot st.slots id u } id = some u := by
  unfold getSlot at h ⊢
  exact find?_mapSetSlot u id hu st.slots ⟨s, h⟩

/-- C10. `updateParkingSlot` keeps the stored slot's `id` and `postedAt`
unchanged — even when the updates object carries values for them — and
every field not present in the updates object keeps its previous value. -/
theorem updateParkingSlot_frame (st : MemState) (id : Nat) (updates : SlotUpdates)
    (s : ParkingSlot) (h : getSlot st id = some s) :
    ∃ r st2, updateParkingSlot st id updates = (some r, st2) ∧
      r.id = s.id ∧ r.postedAt = s.postedAt ∧
      (updates.latitude = none → r.latitude = s.latitude) ∧
      (updates.longitude = none → r.longitude = s.longitude) ∧
      (updates.address = none → r.address = s.address) ∧
      (updates.notes = none → r.notes = s.notes) ∧
      (updates.status = none → r.status = s.status) ∧
      (updates.spotType = none → r.spotType = s.spotType) ∧
      (updates.dataSource = none → r.dataSource = s.dataSource) ∧
      (updates.verified = none → r.verified = s.verified) ∧
      (updates.confidenceScore = none → r.confidenceScore = s.confidenceScore) ∧
      (updates.userConfirmations = none → r.userConfirmations = s.userConfirmations) ∧
      (updates.firstReportedBy = none → r.firstReportedBy = s.firstReportedBy) ∧
      (updates.currentlyAvailable = none → r.currentlyAvailable = s.currentlyAvailable) := by
  refine ⟨applyUpdates s updates, _, updateParkingSlot_found updates h,
    rfl, rfl, ?_, ?_, ?_, ?_, ?_, ?_, ?_, ?_, ?_, ?_, ?_, ?_⟩
  all_goals intro hn
  all_goals simp [applyUpdates, hn]

/-- A concrete stored slot for the storage witnesses. -/
noncomputable def witnessSlot : ParkingSlot :=
  { id := 1
    latitude := 37.8716
    longitude := -122.2727
    address := "Test Street"
    notes := none
    status := SpotStatus.available
    spotType := some "street"
    dataSource := some "sf_open_data"
    verified := some false
    confidenceScore := some 70
    userConfirmations := some 0
    firstReportedBy := none
    currentlyAvailable := some true
    postedAt := 42 }

/-- A one-slot store for the storage witnesses. -/
noncomputable def witnessState : MemState := { slots := [witnessSlot], nextId := 2 }

lemma witness_getSlot : getSlot witnessState 1 = some witnessSlot := by
  unfold getSlot witnessState witnessSlot
  rfl

/-- The updates object used by the C10 witness: it carries `id`,
`postedAt` and a new status. -/
def witnessUpdates : SlotUpdates :=
  { emptyUpdates with
    id := some 999
    postedAt := some 77
    status := some SpotStatus.taken }

/-- Witness for C10: updating the one-slot store with an updates object
that tries to overwrite `id` and `postedAt`. -/
theorem updateParkingSlot_frame_witness :
    ∃ r st2, updateParkingSlot witnessState 1 witnessUpdates = (some r, st2) ∧
      r.id = witnessSlot.id ∧ r.postedAt = witnessSlot.postedAt ∧
      (witnessUpdates.latitude = none → r.latitude = witnessSlot.latitude) ∧
      (witnessUpdates.longitude = none → r.longitude = witnessSlot.longitude) ∧
      (witnessUpdates.address = none → r.address = witnessSlot.address) ∧
      (witnessUpdates.notes = none → r.notes = witnessSlot.notes) ∧
      (witnessUpdates.status = none → r.status = witnessSlot.status) ∧
      (witnessUpdates.spotType = none → r.spotType = witnessSlot.spotType) ∧
      (witnessUpdates.dataSource = none → r.dataSource = witnessSlot.dataSource) ∧
      (witnessUpdates.verified = none → r.verified = witnessSlot.verified) ∧
      (witnessUpdates.confidenceScore = none → r.confidenceScore = witnessSlot.confidenceScore) ∧
      (witnessUpdates.userConfirmations = none → r.userConfirmations = witnessSlot.userConfirmations) ∧
      (witnessUpdates.firstReportedBy = none → r.firstReportedBy = witnessSlot.firstReportedBy) ∧
      (witnessUpdates.currentlyAvailable = none → r.currentlyAvailable = witnessSlot.currentlyAvailable) :=
  updateParkingSlot_frame witnessState 1 witnessUpdates witnessSlot witness_getSlot

lemma confirm_step {st : MemState} {id : Nat} {s : ParkingSlot}
    (h : getSlot st id = some s) :
    confirmParkingSpot st id =
      (some (applyUpdates s (confirmUpdates s)),
        { st with slots := mapSetSlot st.slots id (applyUpdates s (confirmUpdates s)) }) := by
  unfold confirmParkingSpot
  rw [h]
  show updateParkingSlot st id (confirmUpdates s) = _
  rw [updateParkingSlot_found (confirmUpdates s) h]

lemma confirmed_userConfirmations (s : ParkingSlot) :
    (applyUpdates s (confirmUpdates s)).userConfirmations =
      some (s.userConfirmations.getD 0 + 1) := by
  simp [applyUpdates, confirmUpdates, emptyUpdates]

lemma confirmed_verified (s : ParkingSlot) :
    (applyUpdates s (confirmUpdates s)).verified =
      if 3 ≤ s.userConfirmations.getD 0 + 1 then some true else s.verified := by
  simp [applyUpdates, confirmUpdates, emptyUpdates]

lemma confirmed_confidenceScore (s : ParkingSlot) :
    (applyUpdates s (confirmUpdates s)).confidenceScore =
      if 3 ≤ s.userConfirmations.getD 0 + 1 then some 95 else s.confidenceScore := by
  simp [applyUpdates, confirmUpdates, emptyUpdates]

lemma confirm_step_get {st : MemState} {id : Nat} {s : ParkingSlot}
    (h : getSlot st id = some s) :
    getSlot { st with slots := mapSetSlot st.slots id (applyUpdates s (confirmUpdates s)) } id =
      some (applyUpdates s (confirmUpdates s)) :=
  getSlot_after_set _ (by simp only [applyUpdates]; exact getSlot_id h) h

/-- C4. `confirmParkingSpot` increments `userConfirmations` by one (from
the JS fallback `existing.userConfirmations || 0`); when the new count
reaches 3 it sets `verified = true` and `confidenceScore = 95`, otherwise
it leaves both unchanged, and a spot that was already `verified` stays
verified while the counter still increments.  On a fresh spot (counter 0
or absent, `verified = false`), the first two confirm calls leave
`verified = false` and the third sets `verified = true` with
`confidenceScore = 95`. -/
theorem confirmParkingSpot_spec (st : MemState) (id : Nat) (s : ParkingSlot)
    (h : getSlot st id = some s) :
    (∃ r st2, confirmParkingSpot st id = (some r, st2) ∧
      r.userConfirmations = some (s.userConfirmations.getD 0 + 1) ∧
      (3 ≤ s.userConfirmations.getD 0 + 1 →
        r.verified = some true ∧ r.confidenceScore = some 95) ∧
      (s.userConfirmations.getD 0 + 1 < 3 →
        r.verified = s.verified ∧ r.confidenceScore = s.confidenceScore) ∧
      (s.verified = some true → r.verified = some true) ∧
      getSlot st2 id = some r) ∧
    (s.userConfirmations.getD 0 = 0 → s.verified = some false →
      ∃ r1 st1 r2 st2 r3 st3,
        confirmParkingSpot st id = (some r1, st1) ∧
          r1.verified = some false ∧ r1.userConfirmations = some 1 ∧
        confirmParkingSpot st1 id = (some r2, st2) ∧
          r2.verified = some false ∧ r2.userConfirmations = some 2 ∧
        confirmParkingSpot st2 id = (some r3, st3) ∧
          r3.verified = some true ∧ r3.confidenceScore = some 95 ∧
          r3.userConfirmations = some 3) := by
  constructor
  · refine ⟨applyUpdates s (confirmUpdates s), _, confirm_step h,
      confirmed_userConfirmations s, ?_, ?_, ?_, confirm_step_get h⟩
    · intro h3
      rw [confirmed_verified, confirmed_confidenceScore, if_pos h3, if_pos h3]
      exact ⟨rfl, rfl⟩
    · intro h3
      rw [confirmed_verified, confirmed_confidenceScore, if_neg (not_le.2 h3),
        if_neg (not_le.2 h3)]
      exact ⟨rfl, rfl⟩
    · intro hv
      rw [confirmed_verified]
      split_ifs with h3
      · rfl
      · exact hv
  · intro h0 hv
    set r1 := applyUpdates s (confirmUpdates s) with hr1
    have hstep1 := confirm_step h
    have hget1 := confirm_step_get h
    have hr1uc : r1.userConfirmations = some 1 := by
      rw [hr1, confirmed_userConfirmations, h0]
      norm_num
    have hr1v : r1.verified = some false := by
      rw [hr1, confirmed_verified, h0, if_neg (by norm_num), hv]
    have hr1cs : r1.confidenceScore = s.confidenceScore := by
      rw [hr1, confirmed_confidenceScore, h0, if_neg (by norm_num)]
    set r2 := applyUpdates r1 (confirmUpdates r1) with hr2
    have hstep2 := confirm_step hget1
    have hget2 := confirm_step_get hget1
    have hr2uc : r2.userConfirmations = some 2 := by
      rw [hr2, confirmed_userConfirmations, hr1uc]
      norm_num
    have hr2v : r2.verified = some false := by
      rw [hr2, confirmed_verified, hr1uc]
      rw [if_neg (by norm_num)]
      exact hr1v
    set r3 := applyUpdates r2 (confirmUpdates r2) with hr3
    have hstep3 := confirm_step hget2
    have hr3uc : r3.userConfirmations = some 3 := by
      rw [hr3, confirmed_userConfirmations, hr2uc]
      norm_num
    have hr3v : r3.verified = some true := by
      rw [hr3, confirmed_verified, hr2uc]
      rw [if_pos (by norm_num)]
    have hr3cs : r3.confidenceScore = some 95 := by
      rw [hr3, confirmed_confidenceScore, hr2uc]
      rw [if_pos (by norm_num)]
    exact ⟨r1, _, r2, _, r3, _, hstep1, hr1v, hr1uc, hstep2, hr2v, hr2uc,
      hstep3, hr3v, hr3cs, hr3uc⟩

/-- Witness for C4: the one-slot store, whose slot has counter 0 and
`verified = false`. -/
theorem confirmParkingSpot_spec_witness :
    (∃ r st2, confirmParkingSpot witnessState 1 = (some r, st2) ∧
      r.userConfirmations = some (witnessSlot.userConfirmations.getD 0 + 1) ∧
      (3 ≤ witnessSlot.userConfirmations.getD 0 + 1 →
        r.verified = some true ∧ r.confidenceScore = some 95) ∧
      (witnessSlot.userConfirmations.getD 0 + 1 < 3 →
        r.verified = witnessSlot.verified ∧
          r.confidenceScore = witnessSlot.confidenceScore) ∧
      (witnessSlot.verified = some true → r.verified = some true) ∧
      getSlot st2 1 = some r) ∧
    (witnessSlot.userConfirmations.getD 0 = 0 → witnessSlot.verified = some false →
      ∃ r1 st1 r2 st2 r3 st3,
        confirmParkingSpot witnessState 1 = (some r1, st1) ∧
          r1.verified = some false ∧ r1.userConfirmations = some 1 ∧
        confirmParkingSpot st1 1 = (some r2, st2) ∧
          r2.verified = some false ∧ r2.userConfirmations = some 2 ∧
        confirmParkingSpot st2 1 = (some r3, st3) ∧
          r3.verified = some true ∧ r3.confidenceScore = some 95 ∧
          r3.userConfirmations = some 3) :=
  confirmParkingSpot_spec witnessState 1 witnessSlot witness_getSlot

/-- C3 (divergence witness for the code bug).  At the claim's failing input
— a report at (37.8716, -122.2727) against the empty store — the result is
a new discovery with `pointsEarned = 20` as claimed, but the created slot
does NOT carry the claimed field values: `MemoryStorage.createParkingSlot`
(storage.ts lines 37-49) drops `confidenceScore: 70`,
`userConfirmations: 1`, `dataSource: "user_report"` and `verified: false`
that `reportParkingSpot` passes to it, leaving all four `undefined`
(modelled as `none`) — even though the declared non-nullable `ParkingSlot`
type, the `DatabaseStorage` twin in the same file, and the parallel copy of
`MemoryStorage` all keep them. -/
theorem reportParkingSpot_new_discovery_divergence :
    (reportParkingSpot emptyMemState 0 37.8716 (-122.2727) SpotStatus.available none).1.isNewDiscovery
        = true ∧
      (reportParkingSpot emptyMemState 0 37.8716 (-122.2727) SpotStatus.available none).1.pointsEarned
        = some 20 ∧
      ∃ slot,
        (reportParkingSpot emptyMemState 0 37.8716 (-122.2727) SpotStatus.available none).1.spot
          = some slot ∧
        slot.confidenceScore = none ∧ slot.userConfirmations = none ∧
        slot.dataSource = none ∧ slot.verified = none ∧
        slot.status = SpotStatus.available ∧ slot.latitude = 37.8716 ∧
        slot.longitude = -122.2727 := by
  exact ⟨rfl, rfl, ⟨_, rfl, rfl, rfl, rfl, rfl, rfl, rfl, rfl⟩⟩

/-- The `sourceCount` computed inside
`ParkingAggregatorService.calculateConfidence`: how many of the three
substantive source categories (user-reported, SFpark segments, Google
lots) returned at least one result
(`[hasUserData, hasSFparkData, hasGoogleData].filter(Boolean).length`). -/
def sourceCount {U S G : Type} (userSpots : List U) (sfparkSegments : List S)
    (googleLots : List G) : ℕ :=
  ([decide (0 < userSpots.length), decide (0 < sfparkSegments.length),
    decide (0 < googleLots.length)].filter id).length

/-- `ParkingAggregatorService.calculateConfidence` (aggregator.service.ts
lines 213-229).  The list element types are parameters because the source
types two of the arguments as `any[]`. -/
noncomputable def calculateConfidence {U S G : Type} (userSpots : List U)
    (sfparkSegments : List S) (googleLots : List G) : ℝ :=
  let c := sourceCount userSpots sfparkSegments googleLots
  if c = 0 then 0.2
  else if c = 1 then 0.5
  else if c = 2 then 0.7
  else 0.85

/-- The spec's step function for the overall confidence score (0 sources →
0.2, 1 → 0.5, 2 → 0.7, 3 → 0.85), stated independently of the code for
comparison. -/
noncomputable def specConfidenceStep (n : ℕ) : ℝ :=
  if n = 0 then 0.2
  else if n = 1 then 0.5
  else if n = 2 then 0.7
  else 0.85

/-- C6. The availability summary's `confidenceScore` is exactly the spec's
step function of the number of non-empty source categories; that count
never exceeds 3; and the step function is strictly increasing from 0
non-empty categories up to 3. -/
theorem calculateConfidence_step_function {U S G : Type} :
    (∀ (us : List U) (sf : List S) (gl : List G),
      calculateConfidence us sf gl = specConfidenceStep (sourceCount us sf gl)) ∧
      (∀ (us : List U) (sf : List S) (gl : List G), sourceCount us sf gl ≤ 3) ∧
      specConfidenceStep 0 < specConfidenceStep 1 ∧
      specConfidenceStep 1 < specConfidenceStep 2 ∧
      specConfidenceStep 2 < specConfidenceStep 3 := by
  refine ⟨fun us sf gl => rfl, fun us sf gl => ?_, ?_, ?_, ?_⟩
  · have h := List.length_filter_le (id : Bool → Bool)
      [decide (0 < us.length), decide (0 < sf.length), decide (0 < gl.length)]
    simpa [sourceCount] using h
  · norm_num [specConfidenceStep]
  · norm_num [specConfidenceStep]
  · norm_num [specConfidenceStep]

/-- The source-selection flags of `DataIngestionOrchestrator.ingestAll`
(`includeCensus`, `includeMeters`, `includeCitations`; all default true). -/
structure IngestOptions where
  includeCensus : Bool
  includeMeters : Bool
  includeCitations : Bool

/-- `IngestionResult` (the `bySource` record is flattened into the three
count fields; the wall-clock `duration` is not modelled). -/
structure IngestionResult where
  totalSpots : ℕ
  censusCount : ℕ
  metersCount : ℕ
  citationsCount : ℕ
  duplicatesRemoved : ℕ
  finalSpotCount : ℕ
  spots : List CandidateSpot
  errors : List String

/-- One `try { await service.ingestAll() } catch` block of the
orchestrator: a skipped source contributes nothing; a successful source
contributes its spots; a failed source contributes no spots and one
formatted error message (`` `<label>${error}` ``). -/
noncomputable def ingestStep (included : Bool) (label : String)
    (result : Except String (List CandidateSpot)) : List CandidateSpot × List String :=
  if included then
    match result with
    | Except.ok spots => (spots, [])
    | Except.error e => ([], [label ++ e])
  else ([], [])

/-- `DataIngestionOrchestrator.ingestAll`: run the census, meters and
citations adapters in that order (each adapter's outcome is passed in,
since the adapters themselves do network I/O), catching per-source
failures; concatenate every collected candidate, then hand the whole batch
to the deduplication engine exactly once (`deduplicateFast`). -/
noncomputable def ingestAll (opts : IngestOptions)
    (censusResult metersResult citationsResult : Except String (List CandidateSpot)) :
    IngestionResult :=
  let census := ingestStep opts.includeCensus "SF Parking Census failed: " censusResult
  let meters := ingestStep opts.includeMeters "SF Parking Meters failed: " metersResult
  let citations :=
    ingestStep opts.includeCitations "SF Parking Citations failed: " citationsResult
  let allSpots := census.1 ++ meters.1 ++ citations.1
  let errors := census.2 ++ meters.2 ++ citations.2
  let deduplicatedSpots := deduplicateFast allSpots
  { totalSpots := allSpots.length
    censusCount := census.1.length
    metersCount := meters.1.length
    citationsCount := citations.1.length
    duplicatesRemoved := allSpots.length - deduplicatedSpots.length
    finalSpotCount := deduplicatedSpots.length
    spots := deduplicatedSpots
    errors := errors }

/-- C7. With all three sources selected, the failure of any single adapter
is recorded as one formatted message in `errors` and does not abort the
run: the candidates of the two surviving sources are still concatenated
(in source order) and handed to the deduplication engine exactly once, and
when no adapter fails all three candidate lists reach dedup with no
errors. -/
theorem ingestAll_isolates_failures (c m ci : List CandidateSpot) (e : String) :
    ((ingestAll ⟨true, true, true⟩ (Except.error e) (Except.ok m) (Except.ok ci)).spots =
        deduplicateFast (m ++ ci) ∧
      (ingestAll ⟨true, true, true⟩ (Except.error e) (Except.ok m) (Except.ok ci)).errors =
        ["SF Parking Census failed: " ++ e]) ∧
    ((ingestAll ⟨true, true, true⟩ (Except.ok c) (Except.error e) (Except.ok ci)).spots =
        deduplicateFast (c ++ ci) ∧
      (ingestAll ⟨true, true, true⟩ (Except.ok c) (Except.error e) (Except.ok ci)).errors =
        ["SF Parking Meters failed: " ++ e]) ∧
    ((ingestAll ⟨true, true, true⟩ (Except.ok c) (Except.ok m) (Except.error e)).spots =
        deduplicateFast (c ++ m) ∧
      (ingestAll ⟨true, true, true⟩ (Except.ok c) (Except.ok m) (Except.error e)).errors =
        ["SF Parking Citations failed: " ++ e]) ∧
    ((ingestAll ⟨true, true, true⟩ (Except.ok c) (Except.ok m) (Except.ok ci)).spots =
        deduplicateFast (c ++ m ++ ci) ∧
      (ingestAll ⟨true, true, true⟩ (Except.ok c) (Except.ok m) (Except.ok ci)).errors =
        ([] : List String)) := by
  refine ⟨⟨?_, ?_⟩, ⟨?_, ?_⟩, ⟨?_, ?_⟩, ⟨?_, ?_⟩⟩ <;>
    simp [ingestAll, ingestStep]
